import Mathlib

/-!
Verification of `document_converter.py`: a script that walks a directory
tree, converts each discovered file (PDF, Word, Excel, image, text/CSV)
into a preview, and assembles the previews into one consolidated report
with bookmarks, internal hyperlinks and a file index.

Paths and document text are modelled as `List Char`; the path helpers
mirror the POSIX behaviour of `os.path.split`, `os.path.dirname`,
`os.path.basename`, `os.path.join` and `os.path.splitext` as the script
uses them.  Calls into external systems (PDF rasterizer, office
automation, the filesystem) are modelled as explicit outcome parameters:
an `Except`/`Option` value standing for "the call returned" or "the call
raised", so that the try/except structure of the script is an explicit
match on those outcomes.
-/

namespace DocConv

/-- Tail part of `os.path.split`: the longest suffix without a slash
(`p[p.rfind(sep)+1:]`). -/
def pySplitTail (p : List Char) : List Char :=
  (p.reverse.takeWhile (fun c => c ≠ '/')).reverse

/-- Head part of `os.path.split` before the trailing-slash strip:
`p[:p.rfind(sep)+1]`. -/
def pySplitHeadRaw (p : List Char) : List Char :=
  (p.reverse.dropWhile (fun c => c ≠ '/')).reverse

/-- Head part of `os.path.split`: the raw head, with trailing slashes
stripped unless the head is empty or consists only of slashes. -/
def pySplitHead (p : List Char) : List Char :=
  let h := pySplitHeadRaw p
  if h = [] then h
  else if h.all (fun c => c = '/') then h
  else (h.reverse.dropWhile (fun c => c = '/')).reverse

/-- `os.path.dirname`. -/
def pyDirname (p : List Char) : List Char := pySplitHead p

/-- `os.path.basename`. -/
def pyBasename (p : List Char) : List Char := pySplitTail p

/-- One step of `os.path.join` (POSIX): an absolute component restarts the
path, otherwise a separator is inserted unless one is already there. -/
def pyJoinAcc (acc : List Char) (b : List Char) : List Char :=
  if b.head? = some '/' then b
  else if acc = [] ∨ acc.getLast? = some '/' then acc ++ b
  else acc ++ '/' :: b

/-- `os.path.join(*parts)` for a non-empty list of components. -/
def pyJoin : List (List Char) → List Char
  | [] => []
  | a :: rest => rest.foldl pyJoinAcc a

/-- Extension part of `os.path.splitext` (POSIX): from the last dot of the
base name, unless every character before that dot is itself a dot. -/
def pySplitextExt (p : List Char) : List Char :=
  let b := pyBasename p
  if b.any (fun c => c = '.') then
    let extRev := b.reverse.takeWhile (fun c => c ≠ '.')
    let pre := b.take (b.length - extRev.length - 1)
    if pre.any (fun c => c ≠ '.') then '.' :: extRev.reverse else []
  else []

/-- Model of `get_valid_bookmark_name` (lines 349-365): take the base name,
replace dots with underscores, replace blanks with underscores, and put
`bm_` in front. -/
def get_valid_bookmark_name (file_path : List Char) : List Char :=
  let name := pyBasename file_path
  let name := name.map (fun c => if c = '.' then '_' else c)
  let name := name.map (fun c => if c = ' ' then '_' else c)
  'b' :: 'm' :: '_' :: name

/-- Loop of `get_path_context` (lines 458-464): up to `fuel` times, split
the path, collect the non-empty tail in front of the collected parts, move
to the head, and stop when the head is empty or the separator itself.
Returns the final path together with the collected parts. -/
def ctxLoop : Nat → List Char → List (List Char) → List Char × List (List Char)
  | 0, path, parts => (path, parts)
  | Nat.succ n, path, parts =>
    let head := pySplitHead path
    let tail := pySplitTail path
    let parts' := if tail ≠ [] then tail :: parts else parts
    if head = [] ∨ head = ['/'] then (head, parts')
    else ctxLoop n head parts'

/-- Model of `get_path_context` (lines 444-468) with the default
`levels=3`: collect up to 3 directory names walking up from the containing
directory, join them, and fall back to the containing directory when
nothing was collected. -/
def get_path_context (file_path : List Char) : List Char :=
  let parts := (ctxLoop 3 (pyDirname file_path) []).2
  if parts ≠ [] then pyJoin parts else pyDirname file_path

/-- Content items a converter body can append to the report: converters only
call `add_paragraph`, `add_picture` and `add_table` on the document. -/
inductive BodyItem where
  | para (text : List Char)
  | picture
  | table (cells : List (List (List Char)))
deriving DecidableEq, Repr

/-- Errors raised while reading a file under one encoding: Python's
`UnicodeDecodeError` is handled separately from every other exception in
`process_text`. -/
inductive PyErr where
  | unicodeDecodeError
  | other (msg : List Char)
deriving DecidableEq, Repr

/-- Encoding list of `process_text` (line 268), in the fixed order tried. -/
def encodings : List String := ["utf-8", "gbk", "gb2312", "gb18030", "big5", "utf-16"]

/-- Extension check of `process_text` (line 265):
`file_path.lower().endswith(.csv)`. -/
def is_csv (p : List Char) : Bool := ".csv".toList.isSuffixOf (p.map Char.toLower)

/-- Table built by `process_text` for CSV rows (lines 288-295): the table
has `len(rows[0])` columns; cell `(i, j)` gets row `i`'s cell `j` when that
row has one there, and stays at its default empty text otherwise; cells of
a row beyond the column count are dropped by the `j < len(...)` guard. -/
def renderCsvTable (rows : List (List (List Char))) : List (List (List Char)) :=
  rows.map (fun r => (List.range (rows.headD []).length).map (fun j => r.getD j []))

/-- Items appended in the CSV branch of `process_text` once the rows are
read (lines 286-299). -/
def csvItems (rows : List (List (List Char))) (enc : String) : List BodyItem :=
  if rows = [] then [BodyItem.para ("CSV file appears to be empty.".toList)]
  else
    [BodyItem.table (renderCsvTable rows),
     BodyItem.para (("CSV data presented as table (first 10 rows). Detected encoding: " ++ enc).toList)]

/-- Body of one iteration of the encoding loop in `process_text`: open the
file under `enc` and read either the first 10 CSV rows or the first 10
lines.  `dl enc` models what `f.readlines()` yields under that encoding and
`dr enc` what iterating `csv.reader(f)` yields; either read may raise. -/
def ptAttempt (csv : Bool) (dl : String → Except PyErr (List (List Char)))
    (dr : String → Except PyErr (List (List (List Char)))) (enc : String) :
    Except PyErr (List BodyItem) :=
  if csv then (dr enc).map (fun rows => csvItems (rows.take 10) enc)
  else (dl enc).map (fun ls =>
    [BodyItem.para (ls.take 10).flatten,
     BodyItem.para (("Detected encoding: " ++ enc).toList)])

/-- Encoding loop of `process_text` (lines 270-318): first successful
encoding wins and stops the loop; a `UnicodeDecodeError` moves on to the
next encoding, emitting the diagnostic paragraph when the current encoding
is the last of the global list; any other exception emits an error
paragraph and stops. -/
def ptLoop (csv : Bool) (dl : String → Except PyErr (List (List Char)))
    (dr : String → Except PyErr (List (List (List Char)))) :
    List String → List BodyItem
  | [] => []
  | enc :: rest =>
    match ptAttempt csv dl dr enc with
    | Except.ok items => items
    | Except.error PyErr.unicodeDecodeError =>
      (if some enc = encodings.getLast? then
        [BodyItem.para ("Could not decode file with any of the attempted encodings.".toList)]
       else []) ++ ptLoop csv dl dr rest
    | Except.error (PyErr.other m) =>
      [BodyItem.para ("Error processing file: ".toList ++ m)]

/-- Model of `process_text` (lines 249-321): detect CSV from the extension
and run the encoding loop over the fixed encoding list. -/
def process_text (file_path : List Char) (dl : String → Except PyErr (List (List Char)))
    (dr : String → Except PyErr (List (List (List Char)))) : List BodyItem :=
  ptLoop (is_csv file_path) dl dr encodings

/-- Table built by the openpyxl fallback of `process_excel`
(lines 179-209): at most 10 columns and at most 11 rows (sheet row 1 as
header); a null cell value is skipped, leaving the table cell at its
default empty text.  `cell r c` models `sheet.cell(row=r, column=c).value`
after `str`, `none` standing for a null value. -/
def excel_fallback_table (cell : Nat → Nat → Option (List Char))
    (maxRow maxCol : Nat) : List (List (List Char)) :=
  let max_col := min 10 maxCol
  let max_row := min 11 maxRow
  let header := (List.range max_col).map (fun c => (cell 1 (c + 1)).getD [])
  let dataRows := (List.range (max_row - 1)).map
    (fun r => (List.range max_col).map (fun c => (cell (r + 2) (c + 1)).getD []))
  header :: dataRows

/-- One exception value of the Python code, carrying its message. -/
inductive PyExc where
  | err (msg : List Char)
deriving DecidableEq, Repr

/-- Outcomes of the fallible steps inside the try block of `process_pdf`
(lines 40-52), in the order the code runs them: `fitz.open`, `pdf[0]`,
`get_pixmap`, `pix.save(img_path)`, `doc.add_picture`, `os.remove`. -/
structure PdfEnv where
  openDoc : Except PyExc Unit
  getPage : Except PyExc Unit
  render : Except PyExc Unit
  saveRaster : Except PyExc Unit
  embed : Except PyExc Unit
  removeTemp : Except PyExc Unit
deriving Repr

/-- Model of `process_pdf` (lines 29-52): run the steps in order, the first
exception jumping to the handler, which only prints.  The second component
records whether the temporary raster file `temp_<basename>.png` exists
after the function returns: it is created by `pix.save` and removed only
when the `os.remove` line is reached and succeeds. -/
def process_pdf (env : PdfEnv) : List BodyItem × Bool :=
  match env.openDoc with
  | Except.error _ => ([], false)
  | Except.ok _ =>
  match env.getPage with
  | Except.error _ => ([], false)
  | Except.ok _ =>
  match env.render with
  | Except.error _ => ([], false)
  | Except.ok _ =>
  match env.saveRaster with
  | Except.error _ => ([], false)
  | Except.ok _ =>
  match env.embed with
  | Except.error _ => ([], true)
  | Except.ok _ =>
  match env.removeTemp with
  | Except.error _ => ([BodyItem.picture], true)
  | Except.ok _ => ([BodyItem.picture], false)

/-- File categories recognized by the dispatch of `generate_report`
(lines 539-569). -/
inductive FileKind where
  | pdf
  | word
  | excel
  | image
  | textLike
deriving DecidableEq, Repr

/-- Python `str.endswith` with a tuple of suffixes. -/
def endsWithAny (suffixes : List (List Char)) (s : List Char) : Bool :=
  suffixes.any (fun suf => suf.isSuffixOf s)

/-- Extension dispatch of `generate_report`: `ext = file.lower()` and then
the `ext.endswith(...)` chain in source order; `none` for a file no branch
recognizes. -/
def classify (fname : List Char) : Option FileKind :=
  let ext := fname.map Char.toLower
  if endsWithAny [".pdf".toList] ext then some FileKind.pdf
  else if endsWithAny [".doc".toList, ".docx".toList] ext then some FileKind.word
  else if endsWithAny [".xls".toList, ".xlsx".toList] ext then some FileKind.excel
  else if endsWithAny [".png".toList, ".jpg".toList, ".jpeg".toList, ".gif".toList, ".bmp".toList] ext then
    some FileKind.image
  else if endsWithAny [".txt".toList, ".log".toList, ".md".toList, ".csv".toList] ext then
    some FileKind.textLike
  else none

/-- Items of the assembled report document, in document order. -/
inductive DocItem where
  | heading (level : Nat) (text : List Char)
  | bookmarkStart (name : List Char)
  | para (text : List Char)
  | picture
  | table (cells : List (List (List Char)))
  | internalLink (anchor : List Char) (display : List Char) (tooltip : List Char)
  | runText (text : List Char)
  | tocField
  | pageBreak
deriving DecidableEq, Repr

/-- Embedding of converter content into the document. -/
def BodyItem.toDoc : BodyItem → DocItem
  | BodyItem.para t => DocItem.para t
  | BodyItem.picture => DocItem.picture
  | BodyItem.table cs => DocItem.table cs

/-- Catch layer of the per-file converters: `outcome` is what the try body
of the matching converter produced (or raised); the handlers of
`process_excel` (line 217) and `process_text` (line 321) add an error
paragraph naming the file, the handlers of `process_pdf`, `process_word`
and `process_image` only print. -/
def dispatchConvert (fp : List Char) (k : FileKind)
    (outcome : Except PyExc (List BodyItem)) : List BodyItem :=
  match outcome with
  | Except.ok items => items
  | Except.error (PyExc.err m) =>
    match k with
    | FileKind.excel => [BodyItem.para ("Error processing ".toList ++ fp ++ ": ".toList ++ m)]
    | FileKind.textLike => [BodyItem.para ("Error processing ".toList ++ fp ++ ": ".toList ++ m)]
    | _ => []

/-- Heading text of one file's preview block (e.g. line 541):
`{basename} [{path_context}]`. -/
def headingFor (fp : List Char) : List Char :=
  pyBasename fp ++ " [".toList ++ get_path_context fp ++ "]".toList

/-- Block appended for one recognized file (lines 539-569): heading with
bookmark, location line, then the converter body. -/
def fileBlock (fp : List Char) (body : List BodyItem) : List DocItem :=
  DocItem.heading 2 (headingFor fp) ::
  DocItem.bookmarkStart (get_valid_bookmark_name fp) ::
  DocItem.para ("Location: ".toList ++ pyDirname fp) ::
  body.map BodyItem.toDoc

/-- Python dict assignment `m[k] = v` on an insertion-ordered dict kept as
an association list: an existing key keeps its place, a new key goes to
the end. -/
def dictInsert (m : List (List Char × List Char)) (k v : List Char) :
    List (List Char × List Char) :=
  if m.any (fun p => p.1 = k) then m.map (fun p => if p.1 = k then (k, v) else p)
  else m ++ [(k, v)]

/-- Per-file loop of `generate_report` (lines 529-569): for every walked
file, record its bookmark name in `file_bookmarks` (this happens before the
extension dispatch), then, when the extension is recognized, append the
heading/bookmark/location block and the converter output.  `outcome fp k`
is what the matching converter's try body produced for that file. -/
def walkFold (outcome : List Char → FileKind → Except PyExc (List BodyItem)) :
    List (List Char × List Char) → List DocItem × List (List Char × List Char) →
    List DocItem × List (List Char × List Char)
  | [], acc => acc
  | (root, name) :: rest, (doc, bms) =>
    let fp := pyJoinAcc root name
    let bm := get_valid_bookmark_name fp
    let bms' := dictInsert bms fp bm
    match classify name with
    | some k =>
      walkFold outcome rest (doc ++ fileBlock fp (dispatchConvert fp k (outcome fp k)), bms')
    | none => walkFold outcome rest (doc, bms')

/-- Fixed items `generate_report` adds before the walk (lines 485-523). -/
def preamble : List DocItem :=
  [DocItem.heading 0 ("Document Screenshot Report".toList),
   DocItem.heading 1 ("Table of Contents".toList),
   DocItem.tocField,
   DocItem.para [],
   DocItem.pageBreak]

/-- Items of one File Index entry (lines 574-585): internal hyperlink on
the file name, a run with extension and path context, and a run with the
full directory. -/
def indexEntryItems (fp bm : List Char) : List DocItem :=
  let filename := pyBasename fp
  [DocItem.internalLink bm filename ("Go to ".toList ++ filename),
   DocItem.runText (" (".toList ++ pySplitextExt filename ++ ") - ".toList ++ get_path_context fp),
   DocItem.runText ("\n    Location: ".toList ++ pyDirname fp)]

/-- File Index section (lines 571-585): heading, then one entry per item
of `file_bookmarks` in insertion order. -/
def indexSection (bms : List (List Char × List Char)) : List DocItem :=
  DocItem.heading 1 ("File Index".toList) ::
    (bms.map (fun kv => indexEntryItems kv.1 kv.2)).flatten

/-- Document assembled by `generate_report` before saving, for a walk
yielding `files` as (root, filename) pairs in discovery order. -/
def generate_report_doc (outcome : List Char → FileKind → Except PyExc (List BodyItem))
    (files : List (List Char × List Char)) : List DocItem :=
  let res := walkFold outcome files (preamble, [])
  res.1 ++ indexSection res.2

/-- Exceptions of the save/finalize step: `PermissionError` is caught
separately from every other exception. -/
inductive SaveErr where
  | permission
  | other (msg : List Char)
deriving DecidableEq, Repr

/-- Outcomes of the four fallible operations of the save step
(lines 587-633): the primary `doc.save`, the primary TOC refresh, the
fallback `doc.save`, and the fallback TOC refresh (`none` = returned
normally). -/
structure FinalizeEnv where
  primarySave : Option SaveErr
  primaryToc : Option SaveErr
  fallbackSave : Option SaveErr
  fallbackToc : Option SaveErr
deriving DecidableEq, Repr

/-- Result of the save step: a file written at a path, or an exception
propagating out of `generate_report`. -/
inductive FinalizeResult where
  | saved (path : List Char)
  | raised (e : SaveErr)
deriving DecidableEq, Repr

/-- Fallback path of line 607:
`os.path.join(os.getcwd(), "report_" + os.path.basename(output_file))`. -/
def altPath (cwd output_file : List Char) : List Char :=
  pyJoinAcc cwd ("report_".toList ++ pyBasename output_file)

/-- Messages printed by the fallback failure handler (lines 628-629). -/
def failMsgs : List (List Char) :=
  ["Failed to save report to both original and alternative locations.".toList,
   "Please ensure you have write permissions or try a different output location.".toList]

/-- Fallback block of the save step (lines 606-630): save to the
alternative path, report the substitution, refresh the TOC; any exception
inside is re-raised after printing the failure messages. -/
def finalizeFallback (output_file cwd : List Char) (env : FinalizeEnv)
    (msgs : List (List Char)) : FinalizeResult × List (List Char) :=
  let alt := altPath cwd output_file
  match env.fallbackSave with
  | some e => (FinalizeResult.raised e, msgs ++ failMsgs)
  | none =>
    let msgs := msgs ++
      ["Could not save to ".toList ++ output_file ++ " due to permission denied.".toList,
       "Report saved to alternative location: ".toList ++ alt]
    match env.fallbackToc with
    | some e => (FinalizeResult.raised e, msgs ++ failMsgs)
    | none => (FinalizeResult.saved alt, msgs)

/-- Save step of `generate_report` (lines 587-633): try the primary save
and TOC refresh; a `PermissionError` anywhere in that block triggers the
fallback block once; any other exception is re-raised.  `output_file_abs`
is the precomputed `os.path.abspath(output_file)` of line 483 (the
alternative path is already absolute, `cwd` being absolute). -/
def finalize (output_file_abs output_file cwd : List Char) (env : FinalizeEnv) :
    FinalizeResult × List (List Char) :=
  match env.primarySave with
  | some SaveErr.permission => finalizeFallback output_file cwd env []
  | some (SaveErr.other m) =>
    (FinalizeResult.raised (SaveErr.other m), ["Error saving report: ".toList ++ m])
  | none =>
    let msgs := ["Report generated at: ".toList ++ output_file]
    match env.primaryToc with
    | some SaveErr.permission => finalizeFallback output_file cwd env msgs
    | some (SaveErr.other m) =>
      (FinalizeResult.raised (SaveErr.other m), msgs ++ ["Error saving report: ".toList ++ m])
    | none => (FinalizeResult.saved output_file_abs, msgs)

/-- Anchor a document item references through an internal hyperlink. -/
def anchorOfItem : DocItem → Option (List Char)
  | DocItem.internalLink a _ _ => some a
  | _ => none

/-- Bookmark name a document item places. -/
def bookmarkOfItem : DocItem → Option (List Char)
  | DocItem.bookmarkStart n => some n
  | _ => none

/-- Level-2 headings of a document, in order: one per rendered file. -/
def level2Headings (doc : List DocItem) : List (List Char) :=
  doc.filterMap (fun it => match it with
    | DocItem.heading 2 t => some t
    | _ => none)

/-- Join of directory segments with the separator, no leading slash. -/
def joinSegs : List (List Char) → List Char
  | [] => []
  | [x] => x
  | x :: y :: rest => x ++ '/' :: joinSegs (y :: rest)

/-- Absolute POSIX path with the given directory segments. -/
def buildPath (xs : List (List Char)) : List Char := '/' :: joinSegs xs

/-- Reader standing for a file whose bytes decode under gbk to one line,
and raise `UnicodeDecodeError` under every other encoding. -/
def dlGbkOnly : String → Except PyErr (List (List Char)) := fun e =>
  if e = "gbk" then Except.ok ["hi\n".toList] else Except.error PyErr.unicodeDecodeError

/-- Reader standing for a CSV file whose rows decode under utf-8 to the
two rows of the spec example, the second row one cell short. -/
def drCsvExample : String → Except PyErr (List (List (List Char))) := fun e =>
  if e = "utf-8" then Except.ok [["a".toList, "b".toList], ["c".toList]]
  else Except.error PyErr.unicodeDecodeError

/-- C1: for every input directory, after generate_report finishes, the File
Index section contains exactly one IndexEntry per Rendered file
(unrecognized extensions skipped: no heading, no anchor, no index entry),
in discovery order, and every anchor referenced by an IndexEntry was placed
earlier in the document.  This FAILS on the code: `file_bookmarks` is
filled before the extension dispatch (line 534), so a walk containing only
the unrecognized file `/in/a.zip` produces a document whose File Index has
one entry referencing anchor `bm_a_zip` although no file was rendered and
no bookmark was ever placed. -/
theorem fileIndex_entry_for_unrecognized_file :
    (generate_report_doc (fun _ _ => Except.ok []) [("/in".toList, "a.zip".toList)]).filterMap
        anchorOfItem = ["bm_a_zip".toList] ∧
    (generate_report_doc (fun _ _ => Except.ok []) [("/in".toList, "a.zip".toList)]).filterMap
        bookmarkOfItem = [] ∧
    ([("/in".toList, "a.zip".toList)].filter (fun rn => (classify rn.2).isSome)).length = 0 := by
  decide

/-- C5 counterexample: the claim that every non-alphanumeric character of
the base name is replaced fails: the hyphen of `a-b.txt` survives into the
bookmark name unchanged. -/
theorem bookmark_name_keeps_hyphen :
    '-' ∈ get_valid_bookmark_name ("a-b.txt".toList) ∧
    '-'.isAlphanum = false ∧ '-' ≠ '_' := by
  decide

/-- C5 (amended): `get_valid_bookmark_name` replaces exactly the dots and
blanks of the base name (other non-alphanumeric characters are kept), and
the result starts with the fixed `bm_` marker. -/
theorem bookmark_name_replaces_dots_and_blanks (p : List Char) :
    (get_valid_bookmark_name p).take 3 = ['b', 'm', '_'] ∧
    ∀ c ∈ get_valid_bookmark_name p, c ≠ '.' ∧ c ≠ ' ' := by
  refine ⟨rfl, ?_⟩
  intro c hc
  unfold get_valid_bookmark_name at hc
  simp only [List.mem_cons, List.mem_map] at hc
  rcases hc with rfl | rfl | rfl | ⟨x, ⟨a, ha, rfl⟩, rfl⟩
  · exact ⟨by decide, by decide⟩
  · exact ⟨by decide, by decide⟩
  · exact ⟨by decide, by decide⟩
  · constructor <;> split_ifs <;> simp_all

/-- C5 witness: the amended statement at a concrete path and character. -/
theorem bookmark_name_replaces_dots_and_blanks_witness :
    '_' ∈ get_valid_bookmark_name ("a b.txt".toList) ∧ '_' ≠ '.' ∧ '_' ≠ ' ' :=
  ⟨by decide, (bookmark_name_replaces_dots_and_blanks ("a b.txt".toList)).2 '_' (by decide)⟩

/-- C10: anchor minting is a pure function of the base name: two paths with
the same base name get the same anchor (hence calling it twice on one path
is stable), and two distinct paths sharing a base name collide, so anchor
uniqueness across the tree is not guaranteed. -/
theorem bookmark_name_pure_of_basename :
    (∀ p q : List Char, pyBasename p = pyBasename q →
      get_valid_bookmark_name p = get_valid_bookmark_name q) ∧
    ("/x/a.txt".toList ≠ "/y/a.txt".toList ∧
      get_valid_bookmark_name ("/x/a.txt".toList) =
        get_valid_bookmark_name ("/y/a.txt".toList)) := by
  refine ⟨fun p q h => ?_, by decide, by decide⟩
  unfold get_valid_bookmark_name
  rw [h]

/-- C6 counterexample: the claim that after every invocation the temporary
raster file no longer exists fails: when `doc.add_picture` raises after the
raster was written, the handler is entered before `os.remove` runs, and the
temporary file survives the (caught) failure. -/
theorem process_pdf_temp_survives_embed_failure :
    (process_pdf ⟨Except.ok (), Except.ok (), Except.ok (), Except.ok (),
        Except.error (PyExc.err []), Except.ok ()⟩).2 = true := by
  decide

/-- C6 (amended): the temporary raster file survives `process_pdf` exactly
when the run reached `pix.save` successfully and then either the
`add_picture` embed or the `os.remove` deletion raised; on the success path
and on failures before the raster is written, no temporary file is left. -/
theorem process_pdf_temp_cleanup (env : PdfEnv) :
    (process_pdf env).2 = true ↔
      (env.openDoc = Except.ok () ∧ env.getPage = Except.ok () ∧
       env.render = Except.ok () ∧ env.saveRaster = Except.ok () ∧
       (env.embed ≠ Except.ok () ∨ env.removeTemp ≠ Except.ok ())) := by
  obtain ⟨o, g, r, s, e, d⟩ := env
  unfold process_pdf
  cases o <;> cases g <;> cases r <;> cases s <;> cases e <;> cases d <;> simp

/-- C8: the openpyxl fallback of `process_excel` builds a table of exactly
`min 11 maxRow` rows (row 1 as header) by `min 10 maxCol` columns, and a
null cell leaves the table cell at the empty default instead of a
placeholder (the `(cell r c).getD []` in the row formula). -/
theorem excel_fallback_dims (cell : Nat → Nat → Option (List Char))
    (maxRow maxCol : Nat) (h : 1 ≤ maxRow) :
    excel_fallback_table cell maxRow maxCol =
      (List.range (min 11 maxRow)).map (fun i =>
        (List.range (min 10 maxCol)).map (fun j => (cell (i + 1) (j + 1)).getD [])) ∧
    (excel_fallback_table cell maxRow maxCol).length = min 11 maxRow ∧
    ∀ row ∈ excel_fallback_table cell maxRow maxCol, row.length = min 10 maxCol := by
  have hmr : min 11 maxRow = (min 11 maxRow - 1) + 1 := by omega
  have hmain : excel_fallback_table cell maxRow maxCol =
      (List.range (min 11 maxRow)).map (fun i =>
        (List.range (min 10 maxCol)).map (fun j => (cell (i + 1) (j + 1)).getD [])) := by
    unfold excel_fallback_table
    rw [hmr, List.range_succ_eq_map]
    simp [List.map_map, Function.comp]
  refine ⟨hmain, ?_, ?_⟩
  · rw [hmain]; simp
  · rw [hmain]
    intro row hrow
    simp only [List.mem_map] at hrow
    obtain ⟨i, _, rfl⟩ := hrow
    simp

/-- C8 witness: a sheet with 20 rows and 15 columns yields an 11-row,
10-column table. -/
theorem excel_fallback_dims_witness :
    (excel_fallback_table (fun _ _ => none) 20 15).length = 11 ∧
    ∀ row ∈ excel_fallback_table (fun _ _ => none) 20 15, row.length = 10 := by
  have h := excel_fallback_dims (fun _ _ => none) 20 15 (by decide)
  exact ⟨h.2.1, h.2.2⟩

/-- C3: on a `PermissionError` in the primary save block, `generate_report`
retries exactly once at `report_<basename>` under the current working
directory; when the fallback block succeeds the run succeeds with the
substitution reported, and when the fallback save fails the error
propagates out. -/
theorem finalize_permission_fallback (oabs o cwd : List Char) (env : FinalizeEnv)
    (hp : env.primarySave = some SaveErr.permission) :
    (env.fallbackSave = none → env.fallbackToc = none →
      finalize oabs o cwd env =
        (FinalizeResult.saved (altPath cwd o),
         ["Could not save to ".toList ++ o ++ " due to permission denied.".toList,
          "Report saved to alternative location: ".toList ++ altPath cwd o])) ∧
    (∀ e, env.fallbackSave = some e →
      finalize oabs o cwd env = (FinalizeResult.raised e, failMsgs)) := by
  constructor
  · intro h1 h2
    unfold finalize finalizeFallback
    rw [hp, h1, h2]
    rfl
  · intro e he
    unfold finalize finalizeFallback
    rw [hp, he]
    rfl

/-- C3 witness: the fallback at a concrete output path and environment. -/
theorem finalize_permission_fallback_witness :
    finalize ("/out/r.docx".toList) ("r.docx".toList) ("/cwd".toList)
        ⟨some SaveErr.permission, none, none, none⟩ =
      (FinalizeResult.saved (altPath ("/cwd".toList) ("r.docx".toList)),
       ["Could not save to ".toList ++ "r.docx".toList ++ " due to permission denied.".toList,
        "Report saved to alternative location: ".toList ++
          altPath ("/cwd".toList) ("r.docx".toList)]) :=
  (finalize_permission_fallback ("/out/r.docx".toList) ("r.docx".toList) ("/cwd".toList)
    ⟨some SaveErr.permission, none, none, none⟩ rfl).1 rfl rfl

/-- Successful attempt stops the encoding loop with its items. -/
theorem ptLoop_cons_ok (csv : Bool) (dl : String → Except PyErr (List (List Char)))
    (dr : String → Except PyErr (List (List (List Char)))) (enc : String)
    (rest : List String) (items : List BodyItem)
    (h : ptAttempt csv dl dr enc = Except.ok items) :
    ptLoop csv dl dr (enc :: rest) = items := by
  unfold ptLoop
  rw [h]

/-- Decoding error on a non-final encoding moves to the next encoding. -/
theorem ptLoop_cons_unicode (csv : Bool) (dl : String → Except PyErr (List (List Char)))
    (dr : String → Except PyErr (List (List (List Char)))) (enc : String)
    (rest : List String)
    (h : ptAttempt csv dl dr enc = Except.error PyErr.unicodeDecodeError)
    (hlast : ¬ some enc = encodings.getLast?) :
    ptLoop csv dl dr (enc :: rest) = ptLoop csv dl dr rest := by
  simp only [ptLoop]
  rw [h]
  simp [hlast]

/-- When every encoding of a leading block fails with a decoding error and
the next one succeeds, the loop returns that next attempt's items. -/
theorem ptLoop_reach (csv : Bool) (dl : String → Except PyErr (List (List Char)))
    (dr : String → Except PyErr (List (List (List Char)))) :
    ∀ (pre : List String) (enc : String) (post : List String),
      (∀ e ∈ pre, ptAttempt csv dl dr e = Except.error PyErr.unicodeDecodeError) →
      (∀ e ∈ pre, ¬ some e = encodings.getLast?) →
      ∀ items, ptAttempt csv dl dr enc = Except.ok items →
      ptLoop csv dl dr (pre ++ enc :: post) = items := by
  intro pre
  induction pre with
  | nil =>
    intro enc post _ _ items h
    exact ptLoop_cons_ok csv dl dr enc post items h
  | cons a t ih =>
    intro enc post hfail hlast items h
    have hstep : ptLoop csv dl dr ((a :: t) ++ enc :: post) = ptLoop csv dl dr (t ++ enc :: post) :=
      ptLoop_cons_unicode csv dl dr a (t ++ enc :: post)
        (hfail a (List.mem_cons_self a t)) (hlast a (List.mem_cons_self a t))
    rw [hstep]
    exact ih enc post (fun e he => hfail e (List.mem_cons_of_mem a he))
      (fun e he => hlast e (List.mem_cons_of_mem a he)) items h

/-- Encoding before the successful one in a split of the fixed list is not
the final encoding of the list. -/
theorem pre_not_last (pre post : List String) (enc : String)
    (hE : encodings = pre ++ enc :: post) :
    ∀ e ∈ pre, ¬ some e = encodings.getLast? := by
  intro e he hlast
  have hlen : pre.length ≤ 5 := by
    have h6 := congrArg List.length hE
    simp [encodings] at h6
    omega
  have hpre : pre = encodings.take pre.length := by
    rw [hE, List.take_left]
  have hmem5 : e ∈ encodings.take 5 := by
    have htt : encodings.take pre.length = (encodings.take 5).take pre.length := by
      rw [List.take_take]
      congr 1
      omega
    rw [hpre, htt] at he
    exact List.take_subset _ _ he
  have hall : ∀ x ∈ encodings.take 5, x ≠ "utf-16" := by decide
  have hlast16 : encodings.getLast? = some "utf-16" := by rfl
  rw [hlast16] at hlast
  exact hall e hmem5 (Option.some.inj hlast)

/-- C4: `process_text` tries the encodings in the fixed order; the first
one decoding the first 10 lines (or first 10 CSV rows) without a decoding
error is accepted and its name is reported beside the content, and when
every encoding fails with a decoding error a diagnostic paragraph is
emitted instead of content. -/
theorem process_text_encoding_order (p : List Char)
    (dl : String → Except PyErr (List (List Char)))
    (dr : String → Except PyErr (List (List (List Char)))) :
    (∀ (pre post : List String) (enc : String) (ls : List (List Char)),
      is_csv p = false →
      encodings = pre ++ enc :: post →
      (∀ e ∈ pre, dl e = Except.error PyErr.unicodeDecodeError) →
      dl enc = Except.ok ls →
      process_text p dl dr =
        [BodyItem.para (ls.take 10).flatten,
         BodyItem.para (("Detected encoding: " ++ enc).toList)]) ∧
    (∀ (pre post : List String) (enc : String) (rows : List (List (List Char))),
      is_csv p = true →
      encodings = pre ++ enc :: post →
      (∀ e ∈ pre, dr e = Except.error PyErr.unicodeDecodeError) →
      dr enc = Except.ok rows →
      process_text p dl dr = csvItems (rows.take 10) enc) ∧
    ((∀ e ∈ encodings, ptAttempt (is_csv p) dl dr e = Except.error PyErr.unicodeDecodeError) →
      process_text p dl dr =
        [BodyItem.para ("Could not decode file with any of the attempted encodings.".toList)]) := by
  refine ⟨?_, ?_, ?_⟩
  · intro pre post enc ls hcsv hE hfail henc
    unfold process_text
    rw [hE]
    refine ptLoop_reach (is_csv p) dl dr pre enc post ?_ (pre_not_last pre post enc hE) _ ?_
    · intro e he
      simp [ptAttempt, hcsv, hfail e he, Except.map]
    · simp [ptAttempt, hcsv, henc, Except.map]
  · intro pre post enc rows hcsv hE hfail henc
    unfold process_text
    rw [hE]
    refine ptLoop_reach (is_csv p) dl dr pre enc post ?_ (pre_not_last pre post enc hE) _ ?_
    · intro e he
      simp [ptAttempt, hcsv, hfail e he, Except.map]
    · simp [ptAttempt, hcsv, henc, Except.map]
  · intro hall
    unfold process_text
    have e1 : ptLoop (is_csv p) dl dr encodings
        = ptLoop (is_csv p) dl dr ["gbk", "gb2312", "gb18030", "big5", "utf-16"] :=
      ptLoop_cons_unicode _ _ _ _ _ (hall "utf-8" (by decide)) (by decide)
    have e2 : ptLoop (is_csv p) dl dr ["gbk", "gb2312", "gb18030", "big5", "utf-16"]
        = ptLoop (is_csv p) dl dr ["gb2312", "gb18030", "big5", "utf-16"] :=
      ptLoop_cons_unicode _ _ _ _ _ (hall "gbk" (by decide)) (by decide)
    have e3 : ptLoop (is_csv p) dl dr ["gb2312", "gb18030", "big5", "utf-16"]
        = ptLoop (is_csv p) dl dr ["gb18030", "big5", "utf-16"] :=
      ptLoop_cons_unicode _ _ _ _ _ (hall "gb2312" (by decide)) (by decide)
    have e4 : ptLoop (is_csv p) dl dr ["gb18030", "big5", "utf-16"]
        = ptLoop (is_csv p) dl dr ["big5", "utf-16"] :=
      ptLoop_cons_unicode _ _ _ _ _ (hall "gb18030" (by decide)) (by decide)
    have e5 : ptLoop (is_csv p) dl dr ["big5", "utf-16"]
        = ptLoop (is_csv p) dl dr ["utf-16"] :=
      ptLoop_cons_unicode _ _ _ _ _ (hall "big5" (by decide)) (by decide)
    have e6 : ptLoop (is_csv p) dl dr ["utf-16"]
        = [BodyItem.para ("Could not decode file with any of the attempted encodings.".toList)] := by
      unfold ptLoop
      rw [hall "utf-16" (by decide)]
      rfl
    rw [e1, e2, e3, e4, e5, e6]

/-- C4 witness: a file invalid as UTF-8 but valid GBK is accepted on the
second attempt with gbk reported. -/
theorem process_text_encoding_order_witness :
    process_text ("notes.txt".toList) dlGbkOnly
        (fun _ => Except.error PyErr.unicodeDecodeError) =
      [BodyItem.para ("hi\n".toList),
       BodyItem.para ("Detected encoding: gbk".toList)] := by
  have h := (process_text_encoding_order ("notes.txt".toList) dlGbkOnly
      (fun _ => Except.error PyErr.unicodeDecodeError)).1
      ["utf-8"] ["gb2312", "gb18030", "big5", "utf-16"] "gbk" ["hi\n".toList]
      (by decide) rfl ?_ ?_
  · rw [h]
    rfl
  · intro e he
    rw [List.mem_singleton] at he
    subst he
    rfl
  · rfl

/-- C7: for every CSV input (detected by extension, case-insensitively)
whose rows decode at the first working encoding, `process_text` renders a
table of at most 10 rows whose column count equals the first row's cell
count; a row with fewer cells leaves its trailing cells blank, and a row
with more cells has the excess silently dropped. -/
theorem process_text_csv_bounds (p : List Char)
    (dl : String → Except PyErr (List (List Char)))
    (dr : String → Except PyErr (List (List (List Char))))
    (pre post : List String) (enc : String) (rows : List (List (List Char)))
    (hcsv : is_csv p = true)
    (hE : encodings = pre ++ enc :: post)
    (hfail : ∀ e ∈ pre, dr e = Except.error PyErr.unicodeDecodeError)
    (hok : dr enc = Except.ok rows) (hne : rows ≠ []) :
    process_text p dl dr =
      [BodyItem.table (renderCsvTable (rows.take 10)),
       BodyItem.para (("CSV data presented as table (first 10 rows). Detected encoding: " ++ enc).toList)] ∧
    (renderCsvTable (rows.take 10)).length = min 10 rows.length ∧
    (∀ row ∈ renderCsvTable (rows.take 10), row.length = (rows.headD []).length) ∧
    (∀ i j, i < (renderCsvTable (rows.take 10)).length →
      ((renderCsvTable (rows.take 10)).getD i []).getD j [] =
        if j < (rows.headD []).length then ((rows.take 10).getD i []).getD j [] else []) := by
  obtain ⟨r, rs, rfl⟩ : ∃ r rs, rows = r :: rs := by
    cases rows with
    | nil => exact absurd rfl hne
    | cons r rs => exact ⟨r, rs, rfl⟩
  have htake : (r :: rs).take 10 = r :: rs.take 9 := List.take_succ_cons
  refine ⟨?_, ?_, ?_, ?_⟩
  · unfold process_text
    rw [hE]
    refine ptLoop_reach (is_csv p) dl dr pre enc post ?_ (pre_not_last pre post enc hE) _ ?_
    · intro e he
      simp [ptAttempt, hcsv, hfail e he, Except.map]
    · have hattempt : ptAttempt (is_csv p) dl dr enc =
          Except.ok (csvItems ((r :: rs).take 10) enc) := by
        simp [ptAttempt, hcsv, hok, Except.map]
      rw [hattempt, htake]
      rw [csvItems, if_neg (by simp)]
  · simp only [renderCsvTable, List.length_map, List.length_take]
  · intro row hrow
    simp only [renderCsvTable, List.mem_map] at hrow
    obtain ⟨x, _, rfl⟩ := hrow
    simp [htake]
  · intro i j hi
    simp only [htake, List.headD_cons] at hi ⊢
    have hlen_t : (renderCsvTable (r :: rs.take 9)).length = (r :: rs.take 9).length := by
      simp [renderCsvTable]
    have hi' : i < (r :: rs.take 9).length := hlen_t ▸ hi
    have hgetd : (renderCsvTable (r :: rs.take 9)).getD i [] =
        (List.range r.length).map (fun j => ((r :: rs.take 9).getD i []).getD j []) := by
      rw [List.getD_eq_getElem _ _ hi]
      unfold renderCsvTable
      rw [List.getElem_map]
      rw [List.getD_eq_getElem _ _ hi']
      simp
    rw [hgetd]
    by_cases hj : j < r.length
    · rw [if_pos hj]
      have hjlen : j < ((List.range r.length).map
          (fun j => ((r :: rs.take 9).getD i []).getD j [])).length := by
        simpa using hj
      rw [List.getD_eq_getElem _ _ hjlen, List.getElem_map, List.getElem_range]
    · rw [if_neg hj]
      refine List.getD_eq_default _ _ ?_
      simpa using Nat.le_of_not_lt hj

/-- C7 witness: rows `[[a, b], [c]]` give a 2-column table whose second
row's second cell is blank. -/
theorem process_text_csv_bounds_witness :
    process_text ("t.csv".toList) (fun _ => Except.error PyErr.unicodeDecodeError)
        drCsvExample =
      [BodyItem.table [["a".toList, "b".toList], ["c".toList, []]],
       BodyItem.para ("CSV data presented as table (first 10 rows). Detected encoding: utf-8".toList)] := by
  have h := process_text_csv_bounds ("t.csv".toList)
      (fun _ => Except.error PyErr.unicodeDecodeError) drCsvExample
      [] ["gbk", "gb2312", "gb18030", "big5", "utf-16"] "utf-8"
      [["a".toList, "b".toList], ["c".toList]]
      (by decide) rfl (by intro e he; simp at he) rfl (by decide)
  rw [h.1]
  rfl

/-- Appending documents appends their level-2 headings. -/
theorem level2Headings_append (a b : List DocItem) :
    level2Headings (a ++ b) = level2Headings a ++ level2Headings b :=
  List.filterMap_append a b _

/-- One file block contributes exactly its own heading, whatever the
converter body contains. -/
theorem level2Headings_fileBlock (fp : List Char) (body : List BodyItem) :
    level2Headings (fileBlock fp body) = [headingFor fp] := by
  unfold level2Headings fileBlock
  simp only [List.filterMap_cons, List.filterMap_map]
  have hbody : body.filterMap (fun b => match BodyItem.toDoc b with
      | DocItem.heading 2 t => some t
      | _ => none) = [] := by
    rw [List.filterMap_eq_nil_iff]
    intro b _
    cases b <;> rfl
  simp only [Function.comp_def]
  rw [hbody]

/-- The File Index section contributes no level-2 heading. -/
theorem level2Headings_indexSection (bms : List (List Char × List Char)) :
    level2Headings (indexSection bms) = [] := by
  unfold level2Headings indexSection
  rw [List.filterMap_eq_nil_iff]
  intro a ha
  rcases List.mem_cons.mp ha with rfl | hflat
  · rfl
  · obtain ⟨l, hl, hal⟩ := List.mem_flatten.mp hflat
    obtain ⟨kv, _, rfl⟩ := List.mem_map.mp hl
    unfold indexEntryItems at hal
    simp only [List.mem_cons, List.mem_singleton] at hal
    rcases hal with rfl | rfl | rfl | h
    · rfl
    · rfl
    · rfl
    · exact absurd h (List.not_mem_nil a)

/-- Per-file walk: each recognized file contributes exactly one level-2
heading, in discovery order, independently of the converter outcomes. -/
theorem walkFold_level2 (outcome : List Char → FileKind → Except PyExc (List BodyItem))
    (files : List (List Char × List Char)) :
    ∀ doc bms,
      level2Headings (walkFold outcome files (doc, bms)).1 =
        level2Headings doc ++ files.filterMap (fun rn =>
          (classify rn.2).map (fun _ => headingFor (pyJoinAcc rn.1 rn.2))) := by
  induction files with
  | nil =>
    intro doc bms
    simp [walkFold]
  | cons hd tl ih =>
    intro doc bms
    obtain ⟨root, name⟩ := hd
    simp only [walkFold]
    cases hcl : classify name with
    | none =>
      rw [ih]
      simp [hcl]
    | some k =>
      rw [ih]
      rw [level2Headings_append, level2Headings_fileBlock]
      simp [hcl]

/-- C2: a converter failure on one file never aborts the run: for every
assignment of converter outcomes (any file's conversion may raise), the
assembled document still contains one preview heading per recognized file,
in discovery order, and still reaches the File Index section. -/
theorem converter_failures_isolated
    (outcome : List Char → FileKind → Except PyExc (List BodyItem))
    (files : List (List Char × List Char)) :
    level2Headings (generate_report_doc outcome files) =
      files.filterMap (fun rn =>
        (classify rn.2).map (fun _ => headingFor (pyJoinAcc rn.1 rn.2))) ∧
    DocItem.heading 1 ("File Index".toList) ∈ generate_report_doc outcome files := by
  constructor
  · unfold generate_report_doc
    rw [level2Headings_append, walkFold_level2, level2Headings_indexSection]
    rw [show level2Headings preamble = [] from rfl]
    simp
  · unfold generate_report_doc
    refine List.mem_append_right _ ?_
    exact List.mem_cons_self _ _

/-- `takeWhile` passes over a block that satisfies the predicate. -/
theorem takeWhile_append_all {p : Char → Bool} :
    ∀ {l : List Char} (r : List Char), (∀ c ∈ l, p c = true) →
      (l ++ r).takeWhile p = l ++ r.takeWhile p := by
  intro l
  induction l with
  | nil => intro r _; rfl
  | cons a t ih =>
    intro r h
    have ha : p a = true := h a (List.mem_cons_self a t)
    simp only [List.cons_append, List.takeWhile_cons, ha, if_true]
    rw [ih r (fun c hc => h c (List.mem_cons_of_mem a hc))]

/-- `dropWhile` drops a whole block that satisfies the predicate. -/
theorem dropWhile_append_all {p : Char → Bool} :
    ∀ {l : List Char} (r : List Char), (∀ c ∈ l, p c = true) →
      (l ++ r).dropWhile p = r.dropWhile p := by
  intro l
  induction l with
  | nil => intro r _; rfl
  | cons a t ih =>
    intro r h
    have ha : p a = true := h a (List.mem_cons_self a t)
    simp only [List.cons_append, List.dropWhile_cons, ha, if_true]
    exact ih r (fun c hc => h c (List.mem_cons_of_mem a hc))

/-- Appending one more segment extends the join with a separator. -/
theorem joinSegs_append_last (d : List Char) :
    ∀ (xs : List (List Char)), xs ≠ [] →
      joinSegs (xs ++ [d]) = joinSegs xs ++ '/' :: d := by
  intro xs
  induction xs with
  | nil => intro h; exact absurd rfl h
  | cons x t ih =>
    intro _
    cases t with
    | nil => rfl
    | cons y u =>
      have hstep := ih (by simp)
      show joinSegs (x :: ((y :: u) ++ [d])) = (x ++ '/' :: joinSegs (y :: u)) ++ '/' :: d
      have hcons : joinSegs (x :: ((y :: u) ++ [d])) = x ++ '/' :: joinSegs ((y :: u) ++ [d]) := rfl
      rw [hcons, hstep]
      simp [List.append_assoc]

/-- The join of a non-empty segment list starts with its first segment. -/
theorem joinSegs_cons_decomp (y : List Char) (ys : List (List Char)) :
    ∃ t, joinSegs (y :: ys) = y ++ t := by
  cases ys with
  | nil => exact ⟨[], by simp [joinSegs]⟩
  | cons z u => exact ⟨'/' :: joinSegs (z :: u), rfl⟩

/-- The join of segments that are non-empty ends in a non-separator. -/
theorem joinSegs_last_not_slash :
    ∀ (xs : List (List Char)), xs ≠ [] → (∀ s ∈ xs, s ≠ [] ∧ '/' ∉ s) →
      ∃ c t, (joinSegs xs).reverse = c :: t ∧ c ≠ '/' := by
  intro xs
  induction xs with
  | nil => intro h _; exact absurd rfl h
  | cons x u ih =>
    intro _ hgood
    cases u with
    | nil =>
      have hx := hgood x (List.mem_cons_self _ _)
      obtain ⟨c, t, hct⟩ : ∃ c t, x.reverse = c :: t := by
        cases hrev : x.reverse with
        | nil =>
          have : x = [] := by simpa using congrArg List.reverse hrev
          exact absurd this hx.1
        | cons c t => exact ⟨c, t, rfl⟩
      have hcx : c ∈ x := by
        have hmem : c ∈ x.reverse := by rw [hct]; exact List.mem_cons_self _ _
        simpa using hmem
      exact ⟨c, t, by simpa [joinSegs] using hct, fun hcon => hx.2 (hcon ▸ hcx)⟩
    | cons y v =>
      obtain ⟨c, t, hct, hc⟩ := ih (by simp) (fun s hs => hgood s (List.mem_cons_of_mem _ hs))
      refine ⟨c, t ++ '/' :: x.reverse, ?_, hc⟩
      show (x ++ '/' :: joinSegs (y :: v)).reverse = c :: (t ++ '/' :: x.reverse)
      rw [List.reverse_append]
      simp [hct]

/-- Reverse of an absolute path with a final segment: the segment reversed,
then a separator, then the rest. -/
theorem buildPath_append_reverse (xs : List (List Char)) (d : List Char) :
    ∃ R, (buildPath (xs ++ [d])).reverse = d.reverse ++ '/' :: R := by
  cases xs with
  | nil => exact ⟨[], by simp [buildPath, joinSegs]⟩
  | cons y ys =>
    refine ⟨(joinSegs (y :: ys)).reverse ++ ['/'], ?_⟩
    have hstruct : buildPath ((y :: ys) ++ [d]) =
        '/' :: (joinSegs (y :: ys) ++ '/' :: d) := by
      rw [buildPath, joinSegs_append_last d (y :: ys) (by simp)]
    rw [hstruct]
    simp [List.append_assoc]

/-- Characters of a slash-free segment pass the not-a-slash test. -/
theorem seg_rev_all_not_slash (d : List Char) (hd : '/' ∉ d) :
    ∀ c ∈ d.reverse, (decide ¬(c = '/')) = true := by
  intro c hc
  have hcd : c ∈ d := by simpa using hc
  exact decide_eq_true (fun h => hd (h ▸ hcd))

/-- Splitting an absolute path built from segments returns the final
segment as the tail. -/
theorem pySplitTail_buildPath (xs : List (List Char)) (d : List Char)
    (hd : d ≠ [] ∧ '/' ∉ d) :
    pySplitTail (buildPath (xs ++ [d])) = d := by
  obtain ⟨R, hR⟩ := buildPath_append_reverse xs d
  unfold pySplitTail
  rw [hR]
  rw [takeWhile_append_all ('/' :: R) (seg_rev_all_not_slash d hd.2)]
  simp [List.takeWhile_cons]

/-- Splitting an absolute path built from segments returns the path of the
leading segments as the head. -/
theorem pySplitHead_buildPath (xs : List (List Char)) (d : List Char)
    (hxs : ∀ s ∈ xs, s ≠ [] ∧ '/' ∉ s) (hd : d ≠ [] ∧ '/' ∉ d) :
    pySplitHead (buildPath (xs ++ [d])) = buildPath xs := by
  cases xs with
  | nil =>
    show pySplitHead ('/' :: d) = ['/']
    unfold pySplitHead pySplitHeadRaw
    rw [List.reverse_cons]
    rw [dropWhile_append_all ['/'] (seg_rev_all_not_slash d hd.2)]
    simp [List.dropWhile_cons]
  | cons y ys =>
    obtain ⟨c, t, hct, hc⟩ := joinSegs_last_not_slash (y :: ys) (by simp) hxs
    have hstruct : buildPath ((y :: ys) ++ [d]) =
        '/' :: (joinSegs (y :: ys) ++ '/' :: d) := by
      rw [buildPath, joinSegs_append_last d (y :: ys) (by simp)]
    have hy := hxs y (List.mem_cons_self _ _)
    obtain ⟨e, y', rfl⟩ : ∃ e y', y = e :: y' := by
      cases y with
      | nil => exact absurd rfl hy.1
      | cons e y' => exact ⟨e, y', rfl⟩
    have he : e ≠ '/' := fun h => hy.2 (h ▸ List.mem_cons_self _ _)
    obtain ⟨t2, ht2⟩ := joinSegs_cons_decomp (e :: y') ys
    unfold pySplitHead pySplitHeadRaw
    rw [hstruct]
    have hrev : ('/' :: (joinSegs ((e :: y') :: ys) ++ '/' :: d)).reverse =
        d.reverse ++ '/' :: ((joinSegs ((e :: y') :: ys)).reverse ++ ['/']) := by
      simp [List.append_assoc]
    rw [hrev]
    rw [dropWhile_append_all _ (seg_rev_all_not_slash d hd.2)]
    have hdrop : ('/' :: ((joinSegs ((e :: y') :: ys)).reverse ++ ['/'])).dropWhile
        (fun c => decide ¬(c = '/')) = '/' :: ((joinSegs ((e :: y') :: ys)).reverse ++ ['/']) := by
      simp [List.dropWhile_cons]
    rw [hdrop]
    have hraw : ('/' :: ((joinSegs ((e :: y') :: ys)).reverse ++ ['/'])).reverse =
        ('/' :: joinSegs ((e :: y') :: ys)) ++ ['/'] := by
      simp
    rw [hraw]
    have hne2 : ¬ (('/' :: joinSegs ((e :: y') :: ys)) ++ ['/'] = []) := by simp
    rw [if_neg hne2]
    have hallfalse : ¬ ((('/' :: joinSegs ((e :: y') :: ys)) ++ ['/']).all
        (fun c => decide (c = '/')) = true) := by
      intro hall
      have hmem : e ∈ ('/' :: joinSegs ((e :: y') :: ys)) ++ ['/'] := by
        rw [ht2]
        simp
      have := List.all_eq_true.mp hall e hmem
      exact he (of_decide_eq_true this)
    rw [if_neg hallfalse]
    have hrev2 : ((('/' :: joinSegs ((e :: y') :: ys)) ++ ['/']).reverse) =
        '/' :: ((joinSegs ((e :: y') :: ys)).reverse ++ ['/']) := by
      simp
    rw [hrev2]
    have hdrop2 : ('/' :: ((joinSegs ((e :: y') :: ys)).reverse ++ ['/'])).dropWhile
        (fun c => decide (c = '/')) = (joinSegs ((e :: y') :: ys)).reverse ++ ['/'] := by
      rw [List.dropWhile_cons]
      rw [if_pos (by simp)]
      rw [hct, List.cons_append, List.dropWhile_cons]
      rw [if_neg (by simp [hc])]
    rw [hdrop2]
    simp [buildPath]

/-- The walk loop stops immediately at the filesystem root. -/
theorem ctxLoop_root (n : Nat) (parts : List (List Char)) :
    ctxLoop (n + 1) (buildPath []) parts = (buildPath [], parts) := rfl

/-- Paths built from at least one segment are neither empty nor the root. -/
theorem buildPath_ne (xs : List (List Char)) (hne : xs ≠ [])
    (hxs : ∀ s ∈ xs, s ≠ [] ∧ '/' ∉ s) :
    ¬(buildPath xs = [] ∨ buildPath xs = ['/']) := by
  rintro (h | h)
  · exact List.cons_ne_nil _ _ h
  · cases xs with
    | nil => exact hne rfl
    | cons y ys =>
      obtain ⟨t, ht⟩ := joinSegs_cons_decomp y ys
      have hy := hxs y (List.mem_cons_self _ _)
      have hj : joinSegs (y :: ys) = [] := by simpa [buildPath] using h
      rw [ht] at hj
      exact hy.1 (List.append_eq_nil.mp hj).1

/-- One loop iteration on a path of at least two segments: collect the
final segment in front and move to the parent path. -/
theorem ctxLoop_peel (n : Nat) (xs : List (List Char)) (d : List Char)
    (parts : List (List Char))
    (hxs : ∀ s ∈ xs, s ≠ [] ∧ '/' ∉ s) (hd : d ≠ [] ∧ '/' ∉ d) (hne : xs ≠ []) :
    ctxLoop (n + 1) (buildPath (xs ++ [d])) parts =
      ctxLoop n (buildPath xs) (d :: parts) := by
  have hh := pySplitHead_buildPath xs d hxs hd
  have ht := pySplitTail_buildPath xs d hd
  simp only [ctxLoop]
  rw [hh, ht]
  rw [if_pos hd.1]
  rw [if_neg (buildPath_ne xs hne hxs)]

/-- One loop iteration on a single-segment path: collect the segment and
stop at the root. -/
theorem ctxLoop_last (n : Nat) (d : List Char) (parts : List (List Char))
    (hd : d ≠ [] ∧ '/' ∉ d) :
    ctxLoop (n + 1) (buildPath [d]) parts = (buildPath [], d :: parts) := by
  have hh := pySplitHead_buildPath [] d (by intro s hs; simp at hs) hd
  have ht := pySplitTail_buildPath [] d hd
  simp only [List.nil_append] at hh ht
  simp only [ctxLoop]
  rw [hh, ht]
  rw [if_pos hd.1]
  simp [buildPath, joinSegs]

/-- With one unit of fuel left, one more segment is still collected. -/
theorem ctxLoop_one_parts (xs : List (List Char)) (d : List Char)
    (parts : List (List Char))
    (hxs : ∀ s ∈ xs, s ≠ [] ∧ '/' ∉ s) (hd : d ≠ [] ∧ '/' ∉ d) :
    (ctxLoop (0 + 1) (buildPath (xs ++ [d])) parts).2 = d :: parts := by
  cases xs with
  | nil =>
    rw [List.nil_append, ctxLoop_last 0 d parts hd]
  | cons y ys =>
    rw [ctxLoop_peel 0 (y :: ys) d parts hxs hd (by simp)]
    rfl

/-- Segments end in a non-separator, so their last character is never the
separator. -/
theorem getLast?_seg (b : List Char) (hb : b ≠ [] ∧ '/' ∉ b) :
    ¬ b.getLast? = some '/' := by
  rw [List.getLast?_eq_getLast b hb.1]
  intro h
  exact hb.2 (Option.some.inj h ▸ List.getLast_mem hb.1)

/-- The last element of a path extended by a separator and a non-empty
segment is the segment's last element. -/
theorem getLast?_append_slashseg (acc b : List Char) (hbne : b ≠ []) :
    (acc ++ '/' :: b).getLast? = b.getLast? := by
  rw [show acc ++ '/' :: b = (acc ++ ['/']) ++ b by simp]
  exact List.getLast?_append_of_ne_nil _ hbne

/-- Joining a slash-free component onto a path without a trailing slash
inserts exactly one separator. -/
theorem pyJoinAcc_seg (acc b : List Char) (hb : b ≠ [] ∧ '/' ∉ b)
    (hacc : acc ≠ []) (hlast : ¬ acc.getLast? = some '/') :
    pyJoinAcc acc b = acc ++ '/' :: b := by
  obtain ⟨c, b', rfl⟩ : ∃ c b', b = c :: b' := by
    cases b with
    | nil => exact absurd rfl hb.1
    | cons c b' => exact ⟨c, b', rfl⟩
  have hc : c ≠ '/' := fun h => hb.2 (h ▸ List.mem_cons_self _ _)
  unfold pyJoinAcc
  rw [if_neg (by simp [hc])]
  rw [if_neg (by rintro (h | h); exacts [hacc h, hlast h])]

/-- C9: `get_path_context` collects up to 3 directory-name segments walking
up from the containing directory toward the root (stopping early at the
root), joins them most-distant first with the separator, and falls back to
the containing directory string (the root itself) when no segment was
collected. -/
theorem get_path_context_spec (xs : List (List Char)) (f : List Char)
    (hxs : ∀ s ∈ xs, s ≠ [] ∧ '/' ∉ s) (hf : f ≠ [] ∧ '/' ∉ f) :
    get_path_context (buildPath (xs ++ [f])) =
      if xs = [] then ['/'] else joinSegs (xs.drop (xs.length - 3)) := by
  unfold get_path_context
  rw [show pyDirname (buildPath (xs ++ [f])) = buildPath xs from
    pySplitHead_buildPath xs f hxs hf]
  rw [show (3 : Nat) = 2 + 1 from rfl]
  rcases hrev : xs.reverse with _ | ⟨a, u⟩
  · have hx : xs = [] := by simpa using congrArg List.reverse hrev
    subst hx
    rw [ctxLoop_root 2 []]
    simp [buildPath, joinSegs]
  · rcases u with _ | ⟨b, v⟩
    · -- one segment
      have hx : xs = [a] := by simpa using congrArg List.reverse hrev
      subst hx
      have ha := hxs a (List.mem_cons_self _ _)
      rw [ctxLoop_last 2 a [] ha]
      simp [pyJoin, joinSegs]
    · rcases v with _ | ⟨c, w⟩
      · -- two segments
        have hx : xs = [b, a] := by simpa using congrArg List.reverse hrev
        subst hx
        have hb := hxs b (by simp)
        have ha := hxs a (by simp)
        rw [show ([b, a] : List (List Char)) = [b] ++ [a] from rfl]
        rw [ctxLoop_peel 2 [b] a []
          (by intro s hs; rw [List.mem_singleton] at hs; subst hs; exact hb) ha (by simp)]
        rw [show (2 : Nat) = 1 + 1 from rfl]
        rw [ctxLoop_last 1 b [a] hb]
        have hjoin : pyJoin [b, a] = b ++ '/' :: a :=
          pyJoinAcc_seg b a ha hb.1 (getLast?_seg b hb)
        simp [hjoin, joinSegs]
      · -- three or more segments
        have hx : xs = w.reverse ++ [c, b, a] := by
          simpa using congrArg List.reverse hrev
        subst hx
        have hgw : ∀ s ∈ w.reverse, s ≠ [] ∧ '/' ∉ s := fun s hs => hxs s (by simp [hs])
        have hc := hxs c (by simp)
        have hb := hxs b (by simp)
        have ha := hxs a (by simp)
        have hg0 : ∀ s ∈ w.reverse ++ [c], s ≠ [] ∧ '/' ∉ s := by
          intro s hs
          rcases List.mem_append.mp hs with hs | hs
          · exact hgw s hs
          · rw [List.mem_singleton] at hs; subst hs; exact hc
        have hg1 : ∀ s ∈ (w.reverse ++ [c]) ++ [b], s ≠ [] ∧ '/' ∉ s := by
          intro s hs
          rcases List.mem_append.mp hs with hs | hs
          · exact hg0 s hs
          · rw [List.mem_singleton] at hs; subst hs; exact hb
        have haux1 : w.reverse ++ [c, b, a] = ((w.reverse ++ [c]) ++ [b]) ++ [a] := by
          simp [List.append_assoc]
        conv_lhs => rw [haux1]
        rw [ctxLoop_peel 2 ((w.reverse ++ [c]) ++ [b]) a [] hg1 ha (by simp)]
        rw [show (2 : Nat) = 1 + 1 from rfl]
        rw [ctxLoop_peel 1 (w.reverse ++ [c]) b [a] hg0 hb (by simp)]
        rw [show (1 : Nat) = 0 + 1 from rfl]
        rw [ctxLoop_one_parts w.reverse c [b, a] hgw hc]
        have hdrop : (w.reverse ++ [c, b, a]).drop
            ((w.reverse ++ [c, b, a]).length - 3) = [c, b, a] := by
          have hlen : (w.reverse ++ [c, b, a]).length = w.reverse.length + 3 := by simp
          rw [hlen, Nat.add_sub_cancel]
          exact List.drop_left _ _
        have hjoin1 : pyJoinAcc c b = c ++ '/' :: b :=
          pyJoinAcc_seg c b hb hc.1 (getLast?_seg c hc)
        have hjoin3 : pyJoin [c, b, a] = c ++ '/' :: (b ++ '/' :: a) := by
          calc pyJoin [c, b, a] = pyJoinAcc (pyJoinAcc c b) a := rfl
            _ = pyJoinAcc (c ++ '/' :: b) a := by rw [hjoin1]
            _ = (c ++ '/' :: b) ++ '/' :: a :=
              pyJoinAcc_seg _ a ha (by simp)
                (by rw [getLast?_append_slashseg c b hb.1]; exact getLast?_seg b hb)
            _ = c ++ '/' :: (b ++ '/' :: a) := by simp
        rw [if_pos (by simp : ¬(([c, b, a] : List (List Char)) = []))]
        rw [if_neg (by simp : ¬(w.reverse ++ [c, b, a] = []))]
        rw [hdrop, hjoin3]
        simp [joinSegs]

/-- C9 witness: a file at depth 5 under the root yields exactly the last
3 directory segments joined. -/
theorem get_path_context_spec_witness :
    get_path_context ("/r/a/b/c/d/f.txt".toList) = "b/c/d".toList := by
  have h := get_path_context_spec
      ["r".toList, "a".toList, "b".toList, "c".toList, "d".toList] ("f.txt".toList)
      (by decide) (by decide)
  have heq : buildPath (["r".toList, "a".toList, "b".toList, "c".toList, "d".toList]
      ++ ["f.txt".toList]) = "/r/a/b/c/d/f.txt".toList := by decide
  rw [heq] at h
  rw [h]
  decide

end DocConv
